import Mathlib

/-!
Shallow embedding of `ObservableContainer` (the templated, handle-based
implementation: class `ObservableContainer<T, ActualContainer, Allocator>`
together with `ChangeEvent<T>` / `ChangeType`).

The container owns an ordered sequence `data_`, a registry `observers_` of
(handle, callback) pairs, a deferral counter `defer_level_`, a pending-change
flag `batch_changed_`, and a moved-from marker `is_moved_from_`.  Callbacks are
opaque to the container, so they are modelled by an identifying natural number;
what matters for the specification is *which* registered subscriber receives
*which* event, which we record as a list of `Delivery` values: one entry per
(subscriber, dispatched event) pair, in dispatch order, also recording the
container size at the moment of dispatch.

The mutex only serialises operations; all claims are about the sequential
semantics, so it has no counterpart in the model.  `size_t`/indices are `Nat`;
the `uint64_t` handle counter `nextHandleId_` is `Nat` reduced mod `2 ^ 64` at
each increment; `defer_level_` is `int` in the source and is kept as `Int`.
-/

namespace Observable

inductive ChangeType where
  | ElementAdded
  | ElementRemoved
  | ElementModified
  | SizeChanged
  | BatchUpdate
deriving DecidableEq, Repr

/-- `ChangeEvent<T>`: a kind plus optional index / old value / new value
(defaulted to `std::nullopt` exactly as in the C++ constructor). -/
structure ChangeEvent (T : Type) where
  type : ChangeType
  index : Option Nat := none
  oldValue : Option T := none
  newValue : Option T := none
deriving DecidableEq, Repr

/-- The state of one `ObservableContainer` object.  Field names follow the
C++ data members.  An observer is a pair (handle, callback id). -/
structure State (T : Type) where
  data_ : List T
  observers_ : List (Nat × Nat)
  defer_level_ : Int
  batch_changed_ : Bool
  is_moved_from_ : Bool
deriving DecidableEq, Repr

/-- One event as received by one subscriber: the subscriber's handle and
callback id, the event, and the container size at the moment of dispatch. -/
structure Delivery (T : Type) where
  handle : Nat
  cb : Nat
  event : ChangeEvent T
  sizeAtDispatch : Nat
deriving DecidableEq, Repr

/-- `ObservableContainer::notify`: a moved-from object sends nothing; a
non-`BatchUpdate` event under an open batch only sets `batch_changed_`;
otherwise the event is dispatched to every registered observer in
registration order. -/
def notify {T : Type} (st : State T) (ev : ChangeEvent T) :
    State T × List (Delivery T) :=
  if st.is_moved_from_ then
    (st, [])
  else if ev.type ≠ ChangeType.BatchUpdate ∧ st.defer_level_ > 0 then
    ({ st with batch_changed_ := true }, [])
  else
    (st, st.observers_.map (fun p => ⟨p.1, p.2, ev, st.data_.length⟩))

/-- `push_back`: append, then notify `ElementAdded` (index = position of the
new element = old size, newValue = v) and `SizeChanged`. -/
def push_back {T : Type} (st : State T) (v : T) :
    State T × List (Delivery T) :=
  let pushed_at_index := st.data_.length
  let st1 : State T := { st with data_ := st.data_ ++ [v] }
  let r1 := notify st1 { type := ChangeType.ElementAdded,
                         index := some pushed_at_index, newValue := some v }
  let r2 := notify r1.1 { type := ChangeType.SizeChanged }
  (r2.1, r1.2 ++ r2.2)

/-- `pop_back`: on an empty container do nothing; otherwise remove the last
element and notify `ElementRemoved` (index = original size - 1, oldValue =
removed element) and `SizeChanged`. -/
def pop_back {T : Type} (st : State T) : State T × List (Delivery T) :=
  match st.data_.getLast? with
  | none => (st, [])
  | some old_value =>
    let original_size := st.data_.length
    let st1 : State T := { st with data_ := st.data_.dropLast }
    let r1 := notify st1 { type := ChangeType.ElementRemoved,
                           index := some (original_size - 1),
                           oldValue := some old_value }
    let r2 := notify r1.1 { type := ChangeType.SizeChanged }
    (r2.1, r1.2 ++ r2.2)

/-- `insert(pos, value)` with `pos` at distance `idx` from `begin()`: when
`0 ≤ idx ≤ size` insert there and notify `ElementAdded` then `SizeChanged`;
otherwise do nothing and emit nothing. -/
def insert {T : Type} (st : State T) (idx : Nat) (v : T) :
    State T × List (Delivery T) :=
  if idx ≤ st.data_.length then
    let st1 : State T :=
      { st with data_ := st.data_.take idx ++ v :: st.data_.drop idx }
    let r1 := notify st1 { type := ChangeType.ElementAdded,
                           index := some idx, newValue := some v }
    let r2 := notify r1.1 { type := ChangeType.SizeChanged }
    (r2.1, r1.2 ++ r2.2)
  else
    (st, [])

/-- `erase(pos)` with `pos` at distance `idx` from `begin()`: when
`0 ≤ idx < size` remove the element and notify `ElementRemoved` (oldValue =
the removed element) then `SizeChanged`; otherwise do nothing. -/
def erase {T : Type} (st : State T) (idx : Nat) :
    State T × List (Delivery T) :=
  match st.data_[idx]? with
  | none => (st, [])
  | some old_value =>
    let st1 : State T :=
      { st with data_ := st.data_.take idx ++ st.data_.drop (idx + 1) }
    let r1 := notify st1 { type := ChangeType.ElementRemoved,
                           index := some idx, oldValue := some old_value }
    let r2 := notify r1.1 { type := ChangeType.SizeChanged }
    (r2.1, r1.2 ++ r2.2)

/-- `clear`: when non-empty, empty the data and notify `SizeChanged`;
when already empty, nothing happens. -/
def clear {T : Type} (st : State T) : State T × List (Delivery T) :=
  if st.data_.isEmpty then
    (st, [])
  else
    notify { st with data_ := ([] : List T) } { type := ChangeType.SizeChanged }

/-- `modify(size_t, const T&)` (copy overload): when the index is valid and
the new value differs from the current one, overwrite and notify
`ElementModified` with both values; when equal (or out of range), nothing. -/
def modify {T : Type} [DecidableEq T] (st : State T) (index : Nat)
    (newValue : T) : State T × List (Delivery T) :=
  match st.data_[index]? with
  | none => (st, [])
  | some old_value =>
    if old_value ≠ newValue then
      notify { st with data_ := st.data_.set index newValue }
        { type := ChangeType.ElementModified, index := some index,
          oldValue := some old_value, newValue := some newValue }
    else
      (st, [])

/-- `modify(size_t, T&&)` (rvalue overload): when the index is valid, always
overwrite and always notify `ElementModified` — the source performs no
equality check in this overload, and `final_new_value` (re-read from the
container after the move) is the assigned value. -/
def modify_move {T : Type} (st : State T) (index : Nat) (newValue : T) :
    State T × List (Delivery T) :=
  match st.data_[index]? with
  | none => (st, [])
  | some old_value =>
    notify { st with data_ := st.data_.set index newValue }
      { type := ChangeType.ElementModified, index := some index,
        oldValue := some old_value, newValue := some newValue }

/-- `beginUpdate`: increment the deferral counter. -/
def beginUpdate {T : Type} (st : State T) : State T :=
  { st with defer_level_ := st.defer_level_ + 1 }

/-- `endUpdate`: when `defer_level_ > 0`, decrement it; if that reaches 0
with `batch_changed_` set, clear the flag and notify one `BatchUpdate`.
When `defer_level_` is already 0 the call is a silent no-op. -/
def endUpdate {T : Type} (st : State T) : State T × List (Delivery T) :=
  if st.defer_level_ > 0 then
    let d := st.defer_level_ - 1
    if d = 0 ∧ st.batch_changed_ then
      notify { st with defer_level_ := d, batch_changed_ := false }
        { type := ChangeType.BatchUpdate }
    else
      ({ st with defer_level_ := d }, [])
  else
    (st, [])

/-- `addObserver`: pre-increment the process-wide `uint64_t` counter
`nextHandleId_` (wrapping mod `2 ^ 64`), register (handle, callback) at the
back, return the handle.  Takes and returns the counter explicitly; the
result is (new state, new counter, returned handle). -/
def addObserver {T : Type} (st : State T) (g : Nat) (cb : Nat) :
    State T × Nat × Nat :=
  let handle := (g + 1) % 2 ^ 64
  ({ st with observers_ := st.observers_ ++ [(handle, cb)] }, handle, handle)

/-- `removeObserver`: drop every registered pair with the given handle;
return whether the registry shrank. -/
def removeObserver {T : Type} (st : State T) (handle : Nat) :
    State T × Bool :=
  let remaining := st.observers_.filter (fun p => p.1 ≠ handle)
  ({ st with observers_ := remaining },
   decide (remaining.length < st.observers_.length))

/-- Copy assignment `*this = other` for distinct objects: replace the data if
it differs, clear this object's observers and deferral state (but not
`is_moved_from_`), and when the data changed notify one `BatchUpdate`
(to the now-empty registry). -/
def copyAssignFrom {T : Type} [DecidableEq T] (a b : State T) :
    State T × List (Delivery T) :=
  let a1 : State T :=
    { a with
        data_ := b.data_
        observers_ := []
        defer_level_ := 0
        batch_changed_ := false }
  if a.data_ ≠ b.data_ then
    notify a1 { type := ChangeType.BatchUpdate }
  else
    (a1, [])

/-- Move assignment `*this = std::move(other)`.  `same` models the pointer
test `this == &other`: self-move returns both objects unchanged with no
event.  For distinct objects: this object takes `other`'s data and deferral
state, keeps its own observers (they are intentionally not cleared in the
source) and its own `is_moved_from_`; `other` is emptied and marked
moved-from; then one `BatchUpdate` is notified on this object.  The result is
(this after, other after, deliveries on this). -/
def moveAssign {T : Type} (same : Bool) (a b : State T) :
    State T × State T × List (Delivery T) :=
  if same then
    (a, b, [])
  else
    let a1 : State T :=
      { a with
          data_ := b.data_
          defer_level_ := b.defer_level_
          batch_changed_ := b.batch_changed_ }
    let b1 : State T :=
      { b with
          data_ := []
          observers_ := []
          defer_level_ := 0
          batch_changed_ := false
          is_moved_from_ := true }
    let r := notify a1 { type := ChangeType.BatchUpdate }
    (r.1, b1, r.2)

/-- Move construction from `other`: the new object takes the data and the
deferral state, starts with no observers and `is_moved_from_ = false`;
`other` is emptied and marked moved-from.  Result: (new object, source
after). -/
def moveCtor {T : Type} (b : State T) : State T × State T :=
  (⟨b.data_, [], b.defer_level_, b.batch_changed_, false⟩,
   { b with
       data_ := []
       observers_ := []
       defer_level_ := 0
       batch_changed_ := false
       is_moved_from_ := true })

/-- One operation on a fixed container (for other-container arguments the
other object's state is embedded as a value). -/
inductive Op (T : Type) where
  | push_back (v : T)
  | pop_back
  | insertOp (idx : Nat) (v : T)
  | eraseOp (idx : Nat)
  | clearOp
  | modifyOp (idx : Nat) (v : T)
  | modifyMoveOp (idx : Nat) (v : T)
  | beginUpdateOp
  | endUpdateOp
  | addObserverOp (cb : Nat)
  | removeObserverOp (h : Nat)
  | copyAssignOp (b : State T)
  | moveAssignOp (b : State T)

/-- Apply one operation to (state, global handle counter); result is the new
state, the new counter, and the deliveries made during the operation. -/
def applyOp {T : Type} [DecidableEq T] (op : Op T) (st : State T) (g : Nat) :
    State T × Nat × List (Delivery T) :=
  match op with
  | Op.push_back v => let r := push_back st v; (r.1, g, r.2)
  | Op.pop_back => let r := pop_back st; (r.1, g, r.2)
  | Op.insertOp idx v => let r := insert st idx v; (r.1, g, r.2)
  | Op.eraseOp idx => let r := erase st idx; (r.1, g, r.2)
  | Op.clearOp => let r := clear st; (r.1, g, r.2)
  | Op.modifyOp idx v => let r := modify st idx v; (r.1, g, r.2)
  | Op.modifyMoveOp idx v => let r := modify_move st idx v; (r.1, g, r.2)
  | Op.beginUpdateOp => (beginUpdate st, g, [])
  | Op.endUpdateOp => let r := endUpdate st; (r.1, g, r.2)
  | Op.addObserverOp cb => let r := addObserver st g cb; (r.1, r.2.1, [])
  | Op.removeObserverOp h => let r := removeObserver st h; (r.1, g, [])
  | Op.copyAssignOp b => let r := copyAssignFrom st b; (r.1, g, r.2)
  | Op.moveAssignOp b => let r := moveAssign false st b; (r.1, g, r.2.2)

/-- Run a list of operations, accumulating all deliveries in order. -/
def runOps {T : Type} [DecidableEq T] (ops : List (Op T)) (st : State T)
    (g : Nat) : State T × Nat × List (Delivery T) :=
  match ops with
  | [] => (st, g, [])
  | op :: rest =>
    let r := applyOp op st g
    let r2 := runOps rest r.1 r.2.1
    (r2.1, r2.2.1, r.2.2 ++ r2.2.2)

/-- `nextHandleId_` is an `inline static` data member of the class template
`ObservableContainer<T, ActualContainer, Allocator>`: every template
specialization has its own copy, shared by all containers of that
specialization.  A process is therefore modelled by a family of counters
indexed by an abstract specialization tag.  A subscribe call names the
specialization of the container it targets, the container's state, and the
callback id, and runs `addObserver` against that specialization's counter.
`addObserver` never reads the element data, so a single Lean element type can
stand in for the element/backing types of the mixed specializations; only
the tag decides which static counter a call uses.  Returns the final
counters and the handles returned, in call order. -/
def subscribeProcess {T σ : Type} [DecidableEq σ] (counters : σ → Nat) :
    List (σ × State T × Nat) → (σ → Nat) × List Nat
  | [] => (counters, [])
  | c :: rest =>
    let r := addObserver c.2.1 (counters c.1) c.2.2
    let r2 := subscribeProcess
      (fun s => if s = c.1 then r.2.1 else counters s) rest
    (r2.1, r.2.2 :: r2.2)

end Observable

namespace Observable

/-! ### General lemmas about `notify` -/

/-- Dispatching never changes the element sequence: only the suppress branch
touches state, and it only sets `batch_changed_`. -/
theorem notify_data_eq {T : Type} (st : State T) (ev : ChangeEvent T) :
    (notify st ev).1.data_ = st.data_ := by
  unfold notify
  split
  · rfl
  · split <;> rfl

/-- Dispatching never changes the observer registry. -/
theorem notify_observers_eq {T : Type} (st : State T) (ev : ChangeEvent T) :
    (notify st ev).1.observers_ = st.observers_ := by
  unfold notify
  split
  · rfl
  · split <;> rfl

/-- Every delivery produced by a `notify` call carries exactly the notified
event and the container size at that moment, and goes to a pair that is
registered at that moment. -/
theorem mem_notify {T : Type} {st : State T} {ev : ChangeEvent T}
    {d : Delivery T} (hd : d ∈ (notify st ev).2) :
    d.event = ev ∧ d.sizeAtDispatch = st.data_.length ∧
    (d.handle, d.cb) ∈ st.observers_ := by
  unfold notify at hd
  split at hd
  · simp at hd
  · split at hd
    · simp at hd
    · simp only [List.mem_map] at hd
      obtain ⟨p, hp, rfl⟩ := hd
      exact ⟨rfl, rfl, hp⟩

/-! ### The claims -/

/-- C1: from an idle (not moved-from, `defer_level_ = 0`) empty container,
the sequence `beginBatch; append x; beginBatch; append y; endBatch; append z;
endBatch` (x ≠ y) delivers nothing up to and including the inner `endBatch`
and the final `append`; the outer `endBatch` then delivers to every
subscriber exactly one event, a `BatchUpdate`, and the final contents are
`[x, y, z]`. -/
theorem C1_nested_batch_single_batch_update {T : Type} [DecidableEq T]
    (st : State T) (x y z : T) (g : Nat) (_hxy : x ≠ y)
    (hmf : st.is_moved_from_ = false) (hdl : st.defer_level_ = 0)
    (hdata : st.data_ = []) :
    (runOps [Op.beginUpdateOp, Op.push_back x, Op.beginUpdateOp, Op.push_back y,
             Op.endUpdateOp, Op.push_back z] st g).2.2 = [] ∧
    (runOps [Op.beginUpdateOp, Op.push_back x, Op.beginUpdateOp, Op.push_back y,
             Op.endUpdateOp, Op.push_back z, Op.endUpdateOp] st g).2.2 =
      st.observers_.map (fun p =>
        ⟨p.1, p.2, { type := ChangeType.BatchUpdate }, 3⟩) ∧
    (runOps [Op.beginUpdateOp, Op.push_back x, Op.beginUpdateOp, Op.push_back y,
             Op.endUpdateOp, Op.push_back z, Op.endUpdateOp] st g).1.data_ =
      [x, y, z] := by
  obtain ⟨data, obs, dl, bc, mf⟩ := st
  simp only at hmf hdl hdata
  subst hmf hdl hdata
  simp [runOps, applyOp, push_back, notify, beginUpdate, endUpdate]

/-- C1 witness: the concrete run on an empty container with one subscriber. -/
theorem C1_witness :
    (runOps [Op.beginUpdateOp, Op.push_back 10, Op.beginUpdateOp,
             Op.push_back 20, Op.endUpdateOp, Op.push_back 30, Op.endUpdateOp]
      (⟨[], [(1, 0)], 0, false, false⟩ : State Nat) 1).2.2 =
      [⟨1, 0, { type := ChangeType.BatchUpdate }, 3⟩] ∧
    (runOps [Op.beginUpdateOp, Op.push_back 10, Op.beginUpdateOp,
             Op.push_back 20, Op.endUpdateOp, Op.push_back 30, Op.endUpdateOp]
      (⟨[], [(1, 0)], 0, false, false⟩ : State Nat) 1).1.data_ =
      [10, 20, 30] := by
  have h := C1_nested_batch_single_batch_update
    (⟨[], [(1, 0)], 0, false, false⟩ : State Nat) 10 20 30 1
    (by decide) rfl rfl rfl
  exact ⟨h.2.1, h.2.2⟩

/-- C2 counterexample: the rvalue overload `modify(size_t, T&&)` notifies
`ElementModified` even when the new value equals the current one — here the
container holds `[5]`, index 0 already holds 5, the copy overload is a
silent no-op as claimed, yet the rvalue overload delivers one event (the
claim promises zero events for both overloads). -/
theorem C2_counterexample :
    ((⟨[5], [(1, 0)], 0, false, false⟩ : State Nat).data_[0]? = some 5) ∧
    modify (⟨[5], [(1, 0)], 0, false, false⟩ : State Nat) 0 5 =
      ((⟨[5], [(1, 0)], 0, false, false⟩ : State Nat), []) ∧
    (modify_move (⟨[5], [(1, 0)], 0, false, false⟩ : State Nat) 0 5).2 =
      [⟨1, 0, { type := ChangeType.ElementModified, index := some 0,
                oldValue := some 5, newValue := some 5 }, 1⟩] := by
  decide

/-- C2 (amended): on a not-moved-from container with `defer_level_ = 0` and a
valid index holding `cur`, the copy overload of `modify` is a silent no-op
when `v = cur` and delivers exactly one `ElementModified` (index, old value
`cur`, new value `v`) to each subscriber when `v ≠ cur`; the rvalue overload
always delivers that one `ElementModified` per subscriber, with no equality
check. -/
theorem C2_replaceAt_events {T : Type} [DecidableEq T] (st : State T)
    (i : Nat) (v cur : T)
    (hmf : st.is_moved_from_ = false) (hdl : st.defer_level_ = 0)
    (hget : st.data_[i]? = some cur) :
    (cur = v → modify st i v = (st, [])) ∧
    (cur ≠ v →
      modify st i v =
        ({ st with data_ := st.data_.set i v },
         st.observers_.map (fun p =>
           ⟨p.1, p.2,
            { type := ChangeType.ElementModified, index := some i,
              oldValue := some cur, newValue := some v }, st.data_.length⟩))) ∧
    modify_move st i v =
      ({ st with data_ := st.data_.set i v },
       st.observers_.map (fun p =>
         ⟨p.1, p.2,
          { type := ChangeType.ElementModified, index := some i,
            oldValue := some cur, newValue := some v }, st.data_.length⟩)) := by
  obtain ⟨data, obs, dl, bc, mf⟩ := st
  simp only at hmf hdl hget
  subst hmf hdl
  refine ⟨?_, ?_, ?_⟩
  · intro h
    subst h
    simp [modify, hget]
  · intro h
    simp [modify, hget, h, notify]
  · simp [modify_move, hget, notify]

/-- C2 witness: on `[7, 8]` with one subscriber, replacing index 1 by 9
with the copy overload delivers one correctly-populated `ElementModified`,
and replacing index 1 by its current value 8 delivers nothing. -/
theorem C2_witness :
    (modify (⟨[7, 8], [(1, 0)], 0, false, false⟩ : State Nat) 1 8 =
      ((⟨[7, 8], [(1, 0)], 0, false, false⟩ : State Nat), [])) ∧
    (modify (⟨[7, 8], [(1, 0)], 0, false, false⟩ : State Nat) 1 9).2 =
      [⟨1, 0, { type := ChangeType.ElementModified, index := some 1,
                oldValue := some 8, newValue := some 9 }, 2⟩] := by
  refine ⟨?_, ?_⟩
  · exact (C2_replaceAt_events (⟨[7, 8], [(1, 0)], 0, false, false⟩ : State Nat)
      1 8 8 rfl rfl (by decide)).1 rfl
  · have h := (C2_replaceAt_events (⟨[7, 8], [(1, 0)], 0, false, false⟩ : State Nat)
      1 9 8 rfl rfl (by decide)).2.1 (by decide)
    rw [h]
    rfl

/-- C3 counterexample: `ChangeEvent` has no `newSize` field at all; the
`SizeChanged` event dispatched by a concrete `push_back` (new size 1) has
every optional field empty, so no field of the event carries the new size. -/
theorem C3_counterexample :
    (push_back (⟨[], [(1, 0)], 0, false, false⟩ : State Nat) 7).2.get? 1 =
      some ⟨1, 0, ⟨ChangeType.SizeChanged, none, none, none⟩, 1⟩ ∧
    ¬ ∃ d ∈ (push_back (⟨[], [(1, 0)], 0, false, false⟩ : State Nat) 7).2,
        d.event.type = ChangeType.SizeChanged ∧
        (d.event.index = some d.sizeAtDispatch ∨
         d.event.oldValue = some d.sizeAtDispatch ∨
         d.event.newValue = some d.sizeAtDispatch) := by
  decide

/-- C3 (amended): every dispatched `SizeChanged` event carries no payload
(`index`, `oldValue`, `newValue` all empty — the event type has no `newSize`
field), and the container size at the moment of its dispatch equals the size
after the mutation completes, for every operation. -/
theorem C3_size_at_dispatch {T : Type} [DecidableEq T] (op : Op T)
    (st : State T) (g : Nat) (d : Delivery T)
    (hd : d ∈ (applyOp op st g).2.2)
    (hty : d.event.type = ChangeType.SizeChanged) :
    d.sizeAtDispatch = (applyOp op st g).1.data_.length ∧
    d.event.index = none ∧ d.event.oldValue = none ∧ d.event.newValue = none := by
  cases op with
  | push_back v =>
    simp only [applyOp, push_back, List.mem_append] at hd
    rcases hd with hd | hd
    · rcases mem_notify hd with ⟨he, -, -⟩
      rw [he] at hty
      simp at hty
    · rcases mem_notify hd with ⟨he, hs, -⟩
      simp [applyOp, push_back, he, hs, notify_data_eq]
  | pop_back =>
    rcases hmatch : st.data_.getLast? with _ | old
    · simp only [applyOp, pop_back, hmatch] at hd
      simp at hd
    · simp only [applyOp, pop_back, hmatch, List.mem_append] at hd
      rcases hd with hd | hd
      · rcases mem_notify hd with ⟨he, -, -⟩
        rw [he] at hty
        simp at hty
      · rcases mem_notify hd with ⟨he, hs, -⟩
        simp [applyOp, pop_back, hmatch, he, hs, notify_data_eq]
  | insertOp idx v =>
    by_cases hle : idx ≤ st.data_.length
    · simp only [applyOp, insert, hle, if_true, List.mem_append] at hd
      rcases hd with hd | hd
      · rcases mem_notify hd with ⟨he, -, -⟩
        rw [he] at hty
        simp at hty
      · rcases mem_notify hd with ⟨he, hs, -⟩
        simp [applyOp, insert, hle, he, hs, notify_data_eq]
    · simp only [applyOp, insert, hle, if_false] at hd
      simp at hd
  | eraseOp idx =>
    rcases hmatch : st.data_[idx]? with _ | old
    · simp only [applyOp, erase, hmatch] at hd
      simp at hd
    · simp only [applyOp, erase, hmatch, List.mem_append] at hd
      rcases hd with hd | hd
      · rcases mem_notify hd with ⟨he, -, -⟩
        rw [he] at hty
        simp at hty
      · rcases mem_notify hd with ⟨he, hs, -⟩
        simp [applyOp, erase, hmatch, he, hs, notify_data_eq]
  | clearOp =>
    by_cases hemp : st.data_.isEmpty
    · simp only [applyOp, clear, hemp, if_true] at hd
      simp at hd
    · simp only [applyOp, clear, hemp, if_false] at hd
      rcases mem_notify hd with ⟨he, hs, -⟩
      simp [applyOp, clear, hemp, he, hs, notify_data_eq]
  | modifyOp idx v =>
    rcases hmatch : st.data_[idx]? with _ | old
    · simp only [applyOp, modify, hmatch] at hd
      simp at hd
    · simp only [applyOp, modify, hmatch] at hd
      split at hd
      · rcases mem_notify hd with ⟨he, -, -⟩
        rw [he] at hty
        simp at hty
      · simp at hd
  | modifyMoveOp idx v =>
    rcases hmatch : st.data_[idx]? with _ | old
    · simp only [applyOp, modify_move, hmatch] at hd
      simp at hd
    · simp only [applyOp, modify_move, hmatch] at hd
      rcases mem_notify hd with ⟨he, -, -⟩
      rw [he] at hty
      simp at hty
  | beginUpdateOp => simp [applyOp] at hd
  | endUpdateOp =>
    simp only [applyOp, endUpdate] at hd
    split at hd
    · split at hd
      · rcases mem_notify hd with ⟨he, -, -⟩
        rw [he] at hty
        simp at hty
      · simp at hd
    · simp at hd
  | addObserverOp cb => simp [applyOp] at hd
  | removeObserverOp h => simp [applyOp] at hd
  | copyAssignOp b =>
    simp only [applyOp, copyAssignFrom] at hd
    split at hd
    · rcases mem_notify hd with ⟨he, -, -⟩
      rw [he] at hty
      simp at hty
    · simp at hd
  | moveAssignOp b =>
    simp only [applyOp, moveAssign, Bool.false_eq_true, if_false] at hd
    rcases mem_notify hd with ⟨he, -, -⟩
    rw [he] at hty
    simp at hty

/-- C3 witness: the `SizeChanged` delivery of a concrete `push_back` (size
0 → 1) is dispatched at size 1 with an all-empty payload. -/
theorem C3_witness :
    (⟨1, 0, ⟨ChangeType.SizeChanged, none, none, none⟩, 1⟩ : Delivery Nat) ∈
      (applyOp (Op.push_back 7) (⟨[], [(1, 0)], 0, false, false⟩ : State Nat)
        1).2.2 ∧
    (1 : Nat) =
      (applyOp (Op.push_back 7)
        (⟨[], [(1, 0)], 0, false, false⟩ : State Nat) 1).1.data_.length := by
  refine ⟨by decide, ?_⟩
  exact (C3_size_at_dispatch (Op.push_back 7)
    (⟨[], [(1, 0)], 0, false, false⟩ : State Nat) 1
    ⟨1, 0, ⟨ChangeType.SizeChanged, none, none, none⟩, 1⟩
    (by decide) rfl).1

end Observable

namespace Observable

/-- Handles delivered to during one operation come from the registry as it
stood when the operation began: no operation adds an observer and then
dispatches to it within the same call (copy assignment clears the registry
before its own `BatchUpdate`, so it delivers to nobody). -/
theorem mem_applyOp_observers {T : Type} [DecidableEq T] {op : Op T}
    {st : State T} {g : Nat} {d : Delivery T}
    (hd : d ∈ (applyOp op st g).2.2) :
    (d.handle, d.cb) ∈ st.observers_ := by
  cases op with
  | push_back v =>
    simp only [applyOp, push_back, List.mem_append] at hd
    rcases hd with hd | hd
    · exact (mem_notify hd).2.2
    · have hm := (mem_notify hd).2.2
      rwa [notify_observers_eq] at hm
  | pop_back =>
    rcases hmatch : st.data_.getLast? with _ | old
    · simp only [applyOp, pop_back, hmatch] at hd
      simp at hd
    · simp only [applyOp, pop_back, hmatch, List.mem_append] at hd
      rcases hd with hd | hd
      · exact (mem_notify hd).2.2
      · have hm := (mem_notify hd).2.2
        rwa [notify_observers_eq] at hm
  | insertOp idx v =>
    by_cases hle : idx ≤ st.data_.length
    · simp only [applyOp, insert, hle, if_true, List.mem_append] at hd
      rcases hd with hd | hd
      · exact (mem_notify hd).2.2
      · have hm := (mem_notify hd).2.2
        rwa [notify_observers_eq] at hm
    · simp only [applyOp, insert, hle, if_false] at hd
      simp at hd
  | eraseOp idx =>
    rcases hmatch : st.data_[idx]? with _ | old
    · simp only [applyOp, erase, hmatch] at hd
      simp at hd
    · simp only [applyOp, erase, hmatch, List.mem_append] at hd
      rcases hd with hd | hd
      · exact (mem_notify hd).2.2
      · have hm := (mem_notify hd).2.2
        rwa [notify_observers_eq] at hm
  | clearOp =>
    by_cases hemp : st.data_.isEmpty
    · simp only [applyOp, clear, hemp, if_true] at hd
      simp at hd
    · simp only [applyOp, clear, hemp, if_false] at hd
      exact (mem_notify hd).2.2
  | modifyOp idx v =>
    rcases hmatch : st.data_[idx]? with _ | old
    · simp only [applyOp, modify, hmatch] at hd
      simp at hd
    · simp only [applyOp, modify, hmatch] at hd
      split at hd
      · exact (mem_notify hd).2.2
      · simp at hd
  | modifyMoveOp idx v =>
    rcases hmatch : st.data_[idx]? with _ | old
    · simp only [applyOp, modify_move, hmatch] at hd
      simp at hd
    · simp only [applyOp, modify_move, hmatch] at hd
      exact (mem_notify hd).2.2
  | beginUpdateOp => simp [applyOp] at hd
  | endUpdateOp =>
    simp only [applyOp, endUpdate] at hd
    split at hd
    · split at hd
      · exact (mem_notify hd).2.2
      · simp at hd
    · simp at hd
  | addObserverOp cb => simp [applyOp] at hd
  | removeObserverOp h => simp [applyOp] at hd
  | copyAssignOp b =>
    simp only [applyOp, copyAssignFrom] at hd
    split at hd
    · have hm := (mem_notify hd).2.2
      simp at hm
    · simp at hd
  | moveAssignOp b =>
    simp only [applyOp, moveAssign, Bool.false_eq_true, if_false] at hd
    exact (mem_notify hd).2.2

/-- C4 counterexample: the destination of a move assignment keeps its
subscriber registry — here a destination holding `[1]` with subscriber
handle 1 is move-assigned from a container holding `[2, 3]`: afterwards its
registry still contains handle 1, and that pre-registered subscriber is the
one who receives the `BatchUpdate` (the claim promises the registry is
cleared and such subscribers are never notified again). -/
theorem C4_counterexample :
    ((moveAssign false (⟨[1], [(1, 0)], 0, false, false⟩ : State Nat)
        (⟨[2, 3], [], 0, false, false⟩ : State Nat)).1.observers_ = [(1, 0)]) ∧
    (moveAssign false (⟨[1], [(1, 0)], 0, false, false⟩ : State Nat)
        (⟨[2, 3], [], 0, false, false⟩ : State Nat)).2.2 =
      [⟨1, 0, { type := ChangeType.BatchUpdate }, 2⟩] := by
  decide

/-- C4 (amended): move assignment onto a not-moved-from destination gives the
destination the source's elements and deferral state while *keeping* the
destination's own subscriber registry; the source is left empty (elements and
registry) and marked moved-from; exactly one `BatchUpdate` is dispatched on
the destination, to its retained subscribers.  Self-move-assignment changes
nothing and dispatches no event. -/
theorem C4_move_assign {T : Type} (a b : State T)
    (hmf : a.is_moved_from_ = false) :
    moveAssign false a b =
      (⟨b.data_, a.observers_, b.defer_level_, b.batch_changed_, false⟩,
       (⟨[], [], 0, false, true⟩ : State T),
       a.observers_.map (fun p =>
         ⟨p.1, p.2, { type := ChangeType.BatchUpdate }, b.data_.length⟩)) ∧
    moveAssign true a a = (a, a, []) := by
  obtain ⟨da, oa, dla, bca, mfa⟩ := a
  simp only at hmf
  subst hmf
  constructor
  · simp [moveAssign, notify]
  · simp [moveAssign]

/-- C4 witness: the amended statement at a concrete pair of containers. -/
theorem C4_witness :
    moveAssign false (⟨[1], [(1, 0)], 0, false, false⟩ : State Nat)
        (⟨[2, 3], [], 0, false, false⟩ : State Nat) =
      ((⟨[2, 3], [(1, 0)], 0, false, false⟩ : State Nat),
       (⟨[], [], 0, false, true⟩ : State Nat),
       [⟨1, 0, { type := ChangeType.BatchUpdate }, 2⟩]) ∧
    moveAssign true (⟨[1], [(1, 0)], 0, false, false⟩ : State Nat)
        (⟨[1], [(1, 0)], 0, false, false⟩ : State Nat) =
      ((⟨[1], [(1, 0)], 0, false, false⟩ : State Nat),
       (⟨[1], [(1, 0)], 0, false, false⟩ : State Nat), []) := by
  have h := C4_move_assign (⟨[1], [(1, 0)], 0, false, false⟩ : State Nat)
    (⟨[2, 3], [], 0, false, false⟩ : State Nat) rfl
  exact ⟨h.1, (C4_move_assign (⟨[1], [(1, 0)], 0, false, false⟩ : State Nat)
    (⟨[1], [(1, 0)], 0, false, false⟩ : State Nat) rfl).2⟩

/-- C5: `removeObserver` returns true exactly when the handle is currently
registered; on an unknown handle it returns false and leaves the whole state
untouched; afterwards the registry is the original one with every entry for
that handle removed (all other subscribers kept, in order), and no operation
run on the resulting container ever delivers an event tagged with the removed
handle. -/
theorem C5_unsubscribe {T : Type} [DecidableEq T] (st : State T) (h : Nat) :
    ((removeObserver st h).2 = true ↔ h ∈ st.observers_.map Prod.fst) ∧
    (removeObserver st h).1.observers_ =
      st.observers_.filter (fun p => p.1 ≠ h) ∧
    (h ∉ st.observers_.map Prod.fst → removeObserver st h = (st, false)) ∧
    (∀ (op : Op T) (g : Nat) (d : Delivery T),
      d ∈ (applyOp op (removeObserver st h).1 g).2.2 → d.handle ≠ h) := by
  refine ⟨?_, rfl, ?_, ?_⟩
  · simp only [removeObserver, decide_eq_true_eq]
    constructor
    · intro hlt
      by_contra hnot
      have hfe : st.observers_.filter (fun p => p.1 ≠ h) = st.observers_ := by
        apply List.filter_eq_self.mpr
        intro p hp
        simp only [decide_eq_true_eq]
        intro hph
        exact hnot (List.mem_map.mpr ⟨p, hp, hph⟩)
      rw [hfe] at hlt
      exact lt_irrefl _ hlt
    · intro hmem
      obtain ⟨p, hp, hph⟩ := List.mem_map.mp hmem
      apply List.length_filter_lt_length_iff_exists.mpr
      exact ⟨p, hp, by simp [hph]⟩
  · intro hnot
    have hfe : st.observers_.filter (fun p => p.1 ≠ h) = st.observers_ := by
      apply List.filter_eq_self.mpr
      intro p hp
      simp only [decide_eq_true_eq]
      intro hph
      exact hnot (List.mem_map.mpr ⟨p, hp, hph⟩)
    simp only [decide_not] at hfe
    simp [removeObserver, hfe]
  · intro op g d hd
    have hm := mem_applyOp_observers hd
    have he : (removeObserver st h).1.observers_ =
        st.observers_.filter (fun p => p.1 ≠ h) := rfl
    rw [he] at hm
    have hp := List.of_mem_filter hm
    simpa using hp

/-- C5 witness: on a container with subscribers 1 and 2, removing handle 1
reports true, removing unknown handle 7 is a no-op returning false, and a
`push_back` after removing handle 1 delivers no event tagged 1. -/
theorem C5_witness :
    (removeObserver (⟨[5], [(1, 0), (2, 1)], 0, false, false⟩ : State Nat)
      1).2 = true ∧
    removeObserver (⟨[5], [(1, 0), (2, 1)], 0, false, false⟩ : State Nat) 7 =
      ((⟨[5], [(1, 0), (2, 1)], 0, false, false⟩ : State Nat), false) ∧
    ∀ d ∈ (applyOp (Op.push_back 9)
        (removeObserver (⟨[5], [(1, 0), (2, 1)], 0, false, false⟩ : State Nat)
          1).1 0).2.2, d.handle ≠ 1 := by
  refine ⟨?_, ?_, ?_⟩
  · exact (C5_unsubscribe
      (⟨[5], [(1, 0), (2, 1)], 0, false, false⟩ : State Nat) 1).1.mpr
      (by decide)
  · exact (C5_unsubscribe
      (⟨[5], [(1, 0), (2, 1)], 0, false, false⟩ : State Nat) 7).2.2.1
      (by decide)
  · intro d hd
    exact (C5_unsubscribe
      (⟨[5], [(1, 0), (2, 1)], 0, false, false⟩ : State Nat) 1).2.2.2
      (Op.push_back 9) 0 d hd

end Observable

namespace Observable

/-- C6: on a not-moved-from container with `defer_level_ = 0`, `push_back v`
appends and delivers to each subscriber exactly `ElementAdded` (index = size
before the call, newValue = v) followed by `SizeChanged`; `pop_back` on an
empty container changes nothing and delivers nothing, and on a non-empty
container removes the last element and delivers exactly `ElementRemoved`
(index = old size - 1, oldValue = the removed element) followed by
`SizeChanged`. -/
theorem C6_append_removeLast_events {T : Type} (st : State T) (v : T)
    (hmf : st.is_moved_from_ = false) (hdl : st.defer_level_ = 0) :
    push_back st v =
      ({ st with data_ := st.data_ ++ [v] },
       st.observers_.map (fun p => ⟨p.1, p.2,
         { type := ChangeType.ElementAdded, index := some st.data_.length,
           newValue := some v }, st.data_.length + 1⟩) ++
       st.observers_.map (fun p => ⟨p.1, p.2,
         { type := ChangeType.SizeChanged }, st.data_.length + 1⟩)) ∧
    (st.data_ = [] → pop_back st = (st, [])) ∧
    (∀ (xs : List T) (l : T), st.data_ = xs ++ [l] →
      pop_back st =
        ({ st with data_ := xs },
         st.observers_.map (fun p => ⟨p.1, p.2,
           { type := ChangeType.ElementRemoved,
             index := some (st.data_.length - 1),
             oldValue := some l }, xs.length⟩) ++
         st.observers_.map (fun p => ⟨p.1, p.2,
           { type := ChangeType.SizeChanged }, xs.length⟩))) := by
  obtain ⟨data, obs, dl, bc, mf⟩ := st
  simp only at hmf hdl
  subst hmf hdl
  refine ⟨?_, ?_, ?_⟩
  · simp [push_back, notify]
  · intro hdata
    simp only at hdata
    subst hdata
    simp [pop_back]
  · intro xs l hdata
    simp only at hdata
    subst hdata
    simp [pop_back, notify, List.getLast?_concat, List.dropLast_concat]

/-- C6 witness: `push_back 7` on `[4]` and `pop_back` on `[4]` and on `[]`,
with one subscriber. -/
theorem C6_witness :
    push_back (⟨[4], [(1, 0)], 0, false, false⟩ : State Nat) 7 =
      ((⟨[4, 7], [(1, 0)], 0, false, false⟩ : State Nat),
       [⟨1, 0, { type := ChangeType.ElementAdded, index := some 1,
                 newValue := some 7 }, 2⟩,
        ⟨1, 0, { type := ChangeType.SizeChanged }, 2⟩]) ∧
    pop_back (⟨[], [(1, 0)], 0, false, false⟩ : State Nat) =
      ((⟨[], [(1, 0)], 0, false, false⟩ : State Nat), []) ∧
    pop_back (⟨[4], [(1, 0)], 0, false, false⟩ : State Nat) =
      ((⟨[], [(1, 0)], 0, false, false⟩ : State Nat),
       [⟨1, 0, { type := ChangeType.ElementRemoved, index := some 0,
                 oldValue := some 4 }, 0⟩,
        ⟨1, 0, { type := ChangeType.SizeChanged }, 0⟩]) := by
  refine ⟨?_, ?_, ?_⟩
  · exact (C6_append_removeLast_events
      (⟨[4], [(1, 0)], 0, false, false⟩ : State Nat) 7 rfl rfl).1
  · exact (C6_append_removeLast_events
      (⟨[], [(1, 0)], 0, false, false⟩ : State Nat) 0 rfl rfl).2.1 rfl
  · exact (C6_append_removeLast_events
      (⟨[4], [(1, 0)], 0, false, false⟩ : State Nat) 0 rfl rfl).2.2 [] 4 rfl

/-- C7: on a not-moved-from container, `endUpdate` with `defer_level_ = 0`
is a silent no-op; a non-negative `defer_level_` never becomes negative;
when `defer_level_ > 0` it is decremented, and exactly one `BatchUpdate` is
dispatched — clearing `batch_changed_` — precisely when the counter reaches 0
with `batch_changed_` set, and nothing is dispatched otherwise; consequently
a `beginUpdate`/`endUpdate` pair around zero mutations restores the state
and produces zero events, at any nesting depth. -/
theorem C7_endBatch {T : Type} (st : State T)
    (hmf : st.is_moved_from_ = false) :
    (st.defer_level_ = 0 → endUpdate st = (st, [])) ∧
    (0 ≤ st.defer_level_ → 0 ≤ (endUpdate st).1.defer_level_) ∧
    (st.defer_level_ > 0 →
      (endUpdate st).1.defer_level_ = st.defer_level_ - 1 ∧
      (st.defer_level_ = 1 ∧ st.batch_changed_ = true →
        endUpdate st =
          ({ st with defer_level_ := 0, batch_changed_ := false },
           st.observers_.map (fun p => ⟨p.1, p.2,
             { type := ChangeType.BatchUpdate }, st.data_.length⟩))) ∧
      (¬(st.defer_level_ = 1 ∧ st.batch_changed_ = true) →
        endUpdate st = ({ st with defer_level_ := st.defer_level_ - 1 }, []))) ∧
    (0 ≤ st.defer_level_ → (st.defer_level_ = 0 → st.batch_changed_ = false) →
      endUpdate (beginUpdate st) = (st, [])) := by
  obtain ⟨data, obs, dl, bc, mf⟩ := st
  simp only at hmf
  subst hmf
  refine ⟨?_, ?_, ?_, ?_⟩
  · intro h0
    simp only at h0
    subst h0
    simp [endUpdate]
  · intro hge
    simp only at hge
    by_cases hpos : dl > 0
    · simp only [endUpdate, hpos, if_pos]
      split
      · simp [notify]
        try omega
      · simp
        try omega
    · simp [endUpdate, hpos]
      try omega
  · intro hpos
    simp only at hpos
    refine ⟨?_, ?_, ?_⟩
    · simp only [endUpdate, hpos, if_pos]
      split
      · rename_i hcond
        simp [notify, hcond.1]
      · simp
    · rintro ⟨h1, hbc⟩
      simp only at h1 hbc
      subst h1 hbc
      simp [endUpdate, notify]
    · intro hnot
      simp only [endUpdate, hpos, if_pos]
      rw [if_neg]
      intro hcond
      apply hnot
      simp only
      constructor
      · omega
      · exact hcond.2
  · intro hge hinv
    simp only at hge hinv
    simp only [beginUpdate, endUpdate]
    have h1 : dl + 1 > 0 := by omega
    simp only [h1, if_pos]
    by_cases hd0 : dl = 0
    · subst hd0
      simp [hinv rfl]
    · rw [if_neg]
      · simp
      · intro hcond
        have := hcond.1
        omega

/-- C7 witness: unbalanced `endUpdate` on an idle container is a no-op; the
1 → 0 transition with a pending change dispatches one `BatchUpdate`; a
`beginUpdate`/`endUpdate` pair around zero mutations yields zero events. -/
theorem C7_witness :
    endUpdate (⟨[9], [(1, 0)], 0, false, false⟩ : State Nat) =
      ((⟨[9], [(1, 0)], 0, false, false⟩ : State Nat), []) ∧
    endUpdate (⟨[9], [(1, 0)], 1, true, false⟩ : State Nat) =
      ((⟨[9], [(1, 0)], 0, false, false⟩ : State Nat),
       [⟨1, 0, { type := ChangeType.BatchUpdate }, 1⟩]) ∧
    endUpdate (beginUpdate (⟨[9], [(1, 0)], 0, false, false⟩ : State Nat)) =
      ((⟨[9], [(1, 0)], 0, false, false⟩ : State Nat), []) := by
  refine ⟨?_, ?_, ?_⟩
  · exact (C7_endBatch (⟨[9], [(1, 0)], 0, false, false⟩ : State Nat) rfl).1 rfl
  · exact ((C7_endBatch (⟨[9], [(1, 0)], 1, true, false⟩ : State Nat)
      rfl).2.2.1 (by decide)).2.1 ⟨rfl, rfl⟩
  · exact (C7_endBatch (⟨[9], [(1, 0)], 0, false, false⟩ : State Nat)
      rfl).2.2.2 (by decide) (fun _ => rfl)

/-- C8: every mutation whose precondition fails — `pop_back` on empty,
`erase` at an index ≥ size, `insert` at an index > size, either `modify`
overload at an index ≥ size — returns the state completely unchanged
(elements, registry, `defer_level_`, `batch_changed_`) and emits no
events. -/
theorem C8_failed_precondition_no_effect {T : Type} [DecidableEq T]
    (st : State T) (i : Nat) (v : T) :
    (st.data_ = [] → pop_back st = (st, [])) ∧
    (st.data_.length ≤ i → erase st i = (st, [])) ∧
    (st.data_.length < i → insert st i v = (st, [])) ∧
    (st.data_.length ≤ i → modify st i v = (st, [])) ∧
    (st.data_.length ≤ i → modify_move st i v = (st, [])) := by
  refine ⟨?_, ?_, ?_, ?_, ?_⟩
  · intro hdata
    simp [pop_back, hdata]
  · intro hle
    simp [erase, List.getElem?_eq_none hle]
  · intro hlt
    have hn : ¬ i ≤ st.data_.length := by omega
    simp [insert, hn]
  · intro hle
    simp [modify, List.getElem?_eq_none hle]
  · intro hle
    simp [modify_move, List.getElem?_eq_none hle]

/-- C8 witness: all five failed-precondition operations on a concrete
container `[3]` (index 5) and on the empty container. -/
theorem C8_witness :
    pop_back (⟨[], [(1, 0)], 0, false, false⟩ : State Nat) =
      ((⟨[], [(1, 0)], 0, false, false⟩ : State Nat), []) ∧
    erase (⟨[3], [(1, 0)], 0, false, false⟩ : State Nat) 5 =
      ((⟨[3], [(1, 0)], 0, false, false⟩ : State Nat), []) ∧
    insert (⟨[3], [(1, 0)], 0, false, false⟩ : State Nat) 5 7 =
      ((⟨[3], [(1, 0)], 0, false, false⟩ : State Nat), []) ∧
    modify (⟨[3], [(1, 0)], 0, false, false⟩ : State Nat) 5 7 =
      ((⟨[3], [(1, 0)], 0, false, false⟩ : State Nat), []) ∧
    modify_move (⟨[3], [(1, 0)], 0, false, false⟩ : State Nat) 5 7 =
      ((⟨[3], [(1, 0)], 0, false, false⟩ : State Nat), []) := by
  refine ⟨?_, ?_, ?_, ?_, ?_⟩
  · exact (C8_failed_precondition_no_effect
      (⟨[], [(1, 0)], 0, false, false⟩ : State Nat) 5 7).1 rfl
  · exact (C8_failed_precondition_no_effect
      (⟨[3], [(1, 0)], 0, false, false⟩ : State Nat) 5 7).2.1 (by decide)
  · exact (C8_failed_precondition_no_effect
      (⟨[3], [(1, 0)], 0, false, false⟩ : State Nat) 5 7).2.2.1 (by decide)
  · exact (C8_failed_precondition_no_effect
      (⟨[3], [(1, 0)], 0, false, false⟩ : State Nat) 5 7).2.2.2.1 (by decide)
  · exact (C8_failed_precondition_no_effect
      (⟨[3], [(1, 0)], 0, false, false⟩ : State Nat) 5 7).2.2.2.2 (by decide)

/-- Moved-from objects never notify: `notify` returns immediately. -/
theorem notify_moved {T : Type} (st : State T) (ev : ChangeEvent T)
    (hmf : st.is_moved_from_ = true) : notify st ev = (st, []) := by
  simp [notify, hmf]

/-- One operation on a moved-from container delivers nothing and leaves the
flag set: no operation ever writes `is_moved_from_ := false`. -/
theorem applyOp_moved {T : Type} [DecidableEq T] (op : Op T) (st : State T)
    (g : Nat) (hmf : st.is_moved_from_ = true) :
    (applyOp op st g).2.2 = [] ∧ (applyOp op st g).1.is_moved_from_ = true := by
  obtain ⟨data, obs, dl, bc, mf⟩ := st
  simp only at hmf
  subst hmf
  cases op with
  | push_back v => simp [applyOp, push_back, notify]
  | pop_back =>
    rcases hmatch : data.getLast? with _ | old <;>
      simp [applyOp, pop_back, hmatch, notify]
  | insertOp idx v =>
    by_cases hle : idx ≤ data.length <;>
      simp [applyOp, insert, hle, notify]
  | eraseOp idx =>
    rcases hmatch : data[idx]? with _ | old <;>
      simp [applyOp, erase, hmatch, notify]
  | clearOp =>
    by_cases hemp : data.isEmpty <;> simp [applyOp, clear, hemp, notify]
  | modifyOp idx v =>
    rcases hmatch : data[idx]? with _ | old
    · simp [applyOp, modify, hmatch]
    · by_cases hne : old = v <;> simp [applyOp, modify, hmatch, hne, notify]
  | modifyMoveOp idx v =>
    rcases hmatch : data[idx]? with _ | old <;>
      simp [applyOp, modify_move, hmatch, notify]
  | beginUpdateOp => simp [applyOp, beginUpdate]
  | endUpdateOp =>
    by_cases hpos : dl > 0
    · simp only [applyOp, endUpdate]
      rw [if_pos hpos]
      split <;> simp [notify]
    · simp only [applyOp, endUpdate]
      rw [if_neg hpos]
      simp
  | addObserverOp cb => simp [applyOp, addObserver]
  | removeObserverOp h => simp [applyOp, removeObserver]
  | copyAssignOp b =>
    by_cases hne : data = b.data_ <;> simp [applyOp, copyAssignFrom, hne, notify]
  | moveAssignOp b => simp [applyOp, moveAssign, notify]

/-- C10: the move constructor and the move assignment mark their source
moved-from; thereafter, any sequence of operations on a moved-from container
— mutations, batching, copy/move assignment onto it, adding or removing
observers (including subscribers added after the move) — delivers no event
to anybody, and the flag remains set forever. -/
theorem C10_moved_from_forever_silent {T : Type} [DecidableEq T]
    (ops : List (Op T)) (a b st : State T) (g : Nat)
    (hmf : st.is_moved_from_ = true) :
    (moveCtor b).2.is_moved_from_ = true ∧
    (moveAssign false a b).2.1.is_moved_from_ = true ∧
    (runOps ops st g).2.2 = [] ∧
    (runOps ops st g).1.is_moved_from_ = true := by
  refine ⟨rfl, rfl, ?_⟩
  induction ops generalizing st g with
  | nil => exact ⟨rfl, hmf⟩
  | cons op rest ih =>
    have h1 := applyOp_moved op st g hmf
    have h2 := ih (applyOp op st g).1 (applyOp op st g).2.1 h1.2
    simp only [runOps, h1.1, h2.1, List.nil_append]
    exact ⟨trivial, h2.2⟩

/-- C10 witness: a moved-from container (as left by `moveCtor`) stays silent
across a subscribe, a push, a batch pair and a pop, and the flag stays set. -/
theorem C10_witness :
    (runOps [Op.addObserverOp 0, Op.push_back 2, Op.beginUpdateOp,
             Op.endUpdateOp, Op.pop_back]
      (moveCtor (⟨[1], [(1, 0)], 0, false, false⟩ : State Nat)).2 0).2.2 =
      [] ∧
    (runOps [Op.addObserverOp 0, Op.push_back 2, Op.beginUpdateOp,
             Op.endUpdateOp, Op.pop_back]
      (moveCtor (⟨[1], [(1, 0)], 0, false, false⟩ : State Nat)).2
      0).1.is_moved_from_ = true := by
  have h := C10_moved_from_forever_silent
    [Op.addObserverOp 0, Op.push_back 2, Op.beginUpdateOp,
     Op.endUpdateOp, Op.pop_back]
    (⟨[], [], 0, false, false⟩ : State Nat)
    (⟨[], [], 0, false, false⟩ : State Nat)
    (moveCtor (⟨[1], [(1, 0)], 0, false, false⟩ : State Nat)).2 0 rfl
  exact ⟨h.2.2.1, h.2.2.2⟩

end Observable

namespace Observable

/-- A `subscribeProcess` run returns one handle per call. -/
theorem subscribeProcess_length {T σ : Type} [DecidableEq σ]
    (calls : List (σ × State T × Nat)) (counters : σ → Nat) :
    (subscribeProcess counters calls).2.length = calls.length := by
  induction calls generalizing counters with
  | nil => rfl
  | cons c rest ih => simp [subscribeProcess, ih]

/-- The handle returned by call number k (0-based) depends only on the
specialization of the call's target: it is the tag's counter at process
start, plus one more than the number of earlier calls to that same
specialization, wrapped mod `2 ^ 64` — each `addObserver` pre-increments
only its own specialization's static counter. -/
theorem subscribeProcess_get {T σ : Type} [DecidableEq σ]
    (calls : List (σ × State T × Nat)) (counters : σ → Nat) (k : Nat)
    (c : σ × State T × Nat) (hk : calls.get? k = some c) :
    (subscribeProcess counters calls).2.get? k =
      some ((counters c.1 +
        (calls.take k).countP (fun x => x.1 = c.1) + 1) % 2 ^ 64) := by
  induction calls generalizing counters k with
  | nil => simp at hk
  | cons hd rest ih =>
    cases k with
    | zero =>
      rw [List.get?_cons_zero] at hk
      obtain rfl : hd = c := by injection hk
      simp [subscribeProcess, addObserver]
    | succ k =>
      rw [List.get?_cons_succ] at hk
      simp only [subscribeProcess, addObserver, List.get?_cons_succ]
      rw [ih _ _ hk]
      rw [List.take_succ_cons, List.countP_cons]
      by_cases hsp : c.1 = hd.1
      · rw [if_pos hsp]
        congr 1
        have hone : (if decide (hd.1 = c.1) = true then 1 else 0) = 1 := by
          simp [hsp.symm]
        rw [hone]
        have hassoc : (counters hd.1 + 1) % 2 ^ 64 +
            (rest.take k).countP (fun x => x.1 = c.1) + 1 =
            (counters hd.1 + 1) % 2 ^ 64 +
            ((rest.take k).countP (fun x => x.1 = c.1) + 1) := by
          omega
        rw [hassoc, Nat.mod_add_mod, hsp]
        congr 1
        omega
      · rw [if_neg hsp]
        congr 1
        have hzero : (if decide (hd.1 = c.1) = true then 1 else 0) = 0 := by
          simp only [decide_eq_true_eq, ite_eq_right_iff]
          intro hcontra
          exact absurd hcontra.symm hsp
        rw [hzero]
        omega

/-- C9 counterexample: `nextHandleId_` is an `inline static` member of the
class *template*, i.e. one counter per specialization, not process-wide —
a process whose first two subscriptions target containers of two different
specializations (tags `false` and `true`) receives handle 1 from both
calls: the second handle is not greater than the first and the value 1 is
reused, already at the second subscription of the process. -/
theorem C9_counterexample :
    (subscribeProcess (fun _ => 0)
      [(false, (⟨[], [], 0, false, false⟩ : State Nat), 0),
       (true, (⟨[], [], 0, false, false⟩ : State Nat), 0)]).2 = [1, 1] := by
  decide

/-- C9 (amended): the counter is per-specialization, and within one
specialization handles are fresh and monotone: for any two subscribe calls
of a process (all counters starting at 0) that target containers of the
same specialization, the later call returns a strictly greater handle, and
both handles are nonzero, as long as that specialization has seen fewer
than `2 ^ 64` subscriptions (its `uint64_t` counter wraps).  Counters of
different specializations are independent, so equal handle values recur
across specializations. -/
theorem C9_per_specialization_monotone {T σ : Type} [DecidableEq σ]
    (calls : List (σ × State T × Nat)) (k1 k2 : Nat)
    (c1 c2 : σ × State T × Nat)
    (hk1 : calls.get? k1 = some c1) (hk2 : calls.get? k2 = some c2)
    (hlt : k1 < k2) (hsp : c1.1 = c2.1)
    (hcount : calls.countP (fun x => x.1 = c2.1) < 2 ^ 64) :
    ∃ h1 h2 : Nat,
      (subscribeProcess (fun _ => 0) calls).2.get? k1 = some h1 ∧
      (subscribeProcess (fun _ => 0) calls).2.get? k2 = some h2 ∧
      h1 < h2 ∧ h1 ≠ 0 ∧ h2 ≠ 0 := by
  have hf1 := subscribeProcess_get calls (fun _ => 0) k1 c1 hk1
  have hf2 := subscribeProcess_get calls (fun _ => 0) k2 c2 hk2
  simp only [hsp] at hf1
  have htake1 : calls.take (k1 + 1) = calls.take k1 ++ [c1] := by
    have hg : calls[k1]? = some c1 := by
      rw [← List.get?_eq_getElem?]
      exact hk1
    rw [List.take_succ, hg]
    rfl
  have htake2 : calls.take (k2 + 1) = calls.take k2 ++ [c2] := by
    have hg : calls[k2]? = some c2 := by
      rw [← List.get?_eq_getElem?]
      exact hk2
    rw [List.take_succ, hg]
    rfl
  have hstep1 : (calls.take (k1 + 1)).countP (fun x => x.1 = c2.1) =
      (calls.take k1).countP (fun x => x.1 = c2.1) + 1 := by
    rw [htake1, List.countP_append]
    simp [hsp]
  have hstep2 : (calls.take (k2 + 1)).countP (fun x => x.1 = c2.1) =
      (calls.take k2).countP (fun x => x.1 = c2.1) + 1 := by
    rw [htake2, List.countP_append]
    simp
  have hmono : (calls.take (k1 + 1)).countP (fun x => x.1 = c2.1) ≤
      (calls.take k2).countP (fun x => x.1 = c2.1) := by
    have hpre : calls.take (k1 + 1) <+: calls.take k2 :=
      List.take_isPrefix_take.mpr (Or.inl (by omega))
    exact hpre.sublist.countP_le _
  have htot : (calls.take (k2 + 1)).countP (fun x => x.1 = c2.1) ≤
      calls.countP (fun x => x.1 = c2.1) :=
    (List.take_sublist _ _).countP_le _
  have hb1 : (calls.take k1).countP (fun x => x.1 = c2.1) + 1 < 2 ^ 64 := by
    omega
  have hb2 : (calls.take k2).countP (fun x => x.1 = c2.1) + 1 < 2 ^ 64 := by
    omega
  refine ⟨(calls.take k1).countP (fun x => x.1 = c2.1) + 1,
          (calls.take k2).countP (fun x => x.1 = c2.1) + 1, ?_, ?_, ?_, ?_, ?_⟩
  · rw [hf1]
    congr 1
    have h0 : 0 + (calls.take k1).countP (fun x => x.1 = c2.1) + 1 =
        (calls.take k1).countP (fun x => x.1 = c2.1) + 1 := by omega
    rw [h0]
    exact Nat.mod_eq_of_lt hb1
  · rw [hf2]
    congr 1
    have h0 : 0 + (calls.take k2).countP (fun x => x.1 = c2.1) + 1 =
        (calls.take k2).countP (fun x => x.1 = c2.1) + 1 := by omega
    rw [h0]
    exact Nat.mod_eq_of_lt hb2
  · omega
  · omega
  · omega

/-- C9 witness: in a three-call process (two calls to specialization
`false`, one to `true` in between), the two same-specialization calls at
positions 0 and 2 return strictly increasing nonzero handles. -/
theorem C9_witness :
    ∃ h1 h2 : Nat,
      (subscribeProcess (fun _ => 0)
        [(false, (⟨[], [], 0, false, false⟩ : State Nat), 0),
         (true, (⟨[], [], 0, false, false⟩ : State Nat), 1),
         (false, (⟨[7], [], 0, false, false⟩ : State Nat), 2)]).2.get? 0 =
        some h1 ∧
      (subscribeProcess (fun _ => 0)
        [(false, (⟨[], [], 0, false, false⟩ : State Nat), 0),
         (true, (⟨[], [], 0, false, false⟩ : State Nat), 1),
         (false, (⟨[7], [], 0, false, false⟩ : State Nat), 2)]).2.get? 2 =
        some h2 ∧
      h1 < h2 ∧ h1 ≠ 0 ∧ h2 ≠ 0 := by
  exact C9_per_specialization_monotone
    [(false, (⟨[], [], 0, false, false⟩ : State Nat), 0),
     (true, (⟨[], [], 0, false, false⟩ : State Nat), 1),
     (false, (⟨[7], [], 0, false, false⟩ : State Nat), 2)]
    0 2
    (false, (⟨[], [], 0, false, false⟩ : State Nat), 0)
    (false, (⟨[7], [], 0, false, false⟩ : State Nat), 2)
    rfl rfl (by decide) rfl (by decide)

end Observable
